import Mathlib

/-!
Verification of the AdaptiveCards object-model core (card-elements.ts):
polymorphic instantiation with fallback resolution, the validation pass,
type registries, and serialization round-trip behaviour.

The embedding follows src/source/nodejs/adaptivecards/src/card-elements.ts.
Collaborator modules that are part of this repository but not under src/
(serialization.ts, utils.ts, shared.ts, host-capabilities.ts, enums.ts)
are modelled from the spec where needed; each such definition carries a
doc comment starting with `Modelled from the spec:`.
-/

set_option maxHeartbeats 1000000

namespace AdaptiveCards

/-- JSON values as parsed from untrusted input. JavaScript `undefined` is
represented by `Option.none` at the sites where a lookup can miss. -/
inductive JValue where
| jnull : JValue
| jbool : Bool → JValue
| jnum : Int → JValue
| jstr : String → JValue
| jarr : List JValue → JValue
| jobj : List (String × JValue) → JValue

/-- First-match association-list lookup, the behaviour of reading a key
from a JavaScript object literal. -/
def lookupField : List (String × JValue) → String → Option JValue
| [], _ => none
| (k, v) :: rest, key => if k = key then some v else lookupField rest key

/-- Reading `json[key]`: defined for objects, `undefined` otherwise. -/
def jget : JValue → String → Option JValue
| .jobj fields, key => lookupField fields key
| _, _ => none

/-- JavaScript truthiness of a possibly-undefined value (`undefined`,
`null`, `false`, `0` and the empty string are falsy). -/
def jsTruthy : Option JValue → Bool
| none => false
| some .jnull => false
| some (.jbool b) => b
| some (.jnum n) => !(n == 0)
| some (.jstr s) => !(s == "")
| some (.jarr _) => true
| some (.jobj _) => true

/-- JavaScript `typeof v === "object"`: true for objects, arrays and
`null`, false for `undefined` and primitives. -/
def jsTypeofObject : Option JValue → Bool
| some .jnull => true
| some (.jarr _) => true
| some (.jobj _) => true
| _ => false

/-- Modelled from the spec: `Utils.getStringValue` (utils.ts is not under
src/) yields the value when it is a string and `undefined` otherwise. -/
def getStringValue : Option JValue → Option String
| some (.jstr s) => some s
| _ => none

/-- Modelled from the spec: `Utils.isNullOrEmpty` (utils.ts is not under
src/) is true for `undefined`, `null` and the empty string. -/
def isNullOrEmpty : Option String → Bool
| none => true
| some s => s == ""

/-- Validation error kinds, from the `Enums.ValidationError` taxonomy
(enums.ts is not under src/; the constructor names are those used by
card-elements.ts and listed in the spec). -/
inductive ValidationError where
| UnknownElementType
| UnknownActionType
| ElementTypeNotAllowed
| ActionTypeNotAllowed
| InvalidPropertyValue
| PropertyCantBeNull
| DuplicateId
| CollectionCantBeEmpty
| TooManyActions
| InteractivityNotAllowed
| MissingCardType
| UnsupportedCardVersion
| Hint
deriving DecidableEq, Repr

/-- Structured error record `IValidationError` from shared.ts. -/
structure IValidationError where
  error : ValidationError
  message : String
deriving DecidableEq, Repr

/-- Modelled from the spec: the `Version` type of shared.ts (not under
src/): a major.minor pair with a validity flag produced by parsing. -/
structure Version where
  major : Nat
  minor : Nat
  isValid : Bool := true
deriving DecidableEq, Repr

/-- Modelled from the spec: version rendering as "major.minor". -/
def versionToString (v : Version) : String :=
  toString v.major ++ "." ++ toString v.minor

/-- First-match lookup in a capability list. -/
def capFind : List (String × Version) → String → Option Version
| [], _ => none
| (k, v) :: rest, key => if k = key then some v else capFind rest key

/-- Host version `a` satisfies required minimum version `b` under
major.minor ordering. -/
def versionAtLeast (a b : Version) : Bool :=
  b.major < a.major || (a.major == b.major && b.minor ≤ a.minor)

/-- Modelled from the spec: `HostCapabilities.areAllMet`
(host-capabilities.ts is not under src/): every required capability must
be present in the host set with a version at least the required one. -/
def areAllMet (required host : List (String × Version)) : Bool :=
  required.all fun p =>
    match capFind host p.1 with
    | some hv => versionAtLeast hv p.2
    | none => false

/-- Splitting a character list on the dot separator. -/
def splitOnDotAux : List Char → List Char → List (List Char)
| [], acc => [acc.reverse]
| c :: rest, acc =>
  if c = '.' then acc.reverse :: splitOnDotAux rest []
  else splitOnDotAux rest (c :: acc)

/-- Decimal digits to a number; `none` when empty or non-numeric. -/
def digitsToNat? (cs : List Char) : Option Nat :=
  if cs.isEmpty then none
  else if cs.all Char.isDigit then
    some (cs.foldl (fun n c => n * 10 + (c.toNat - 48)) 0)
  else none

/-- Modelled from the spec: version parse-from-string ("major.minor"). -/
def parseVersionString (s : String) : Option Version :=
  match splitOnDotAux s.data [] with
  | [a, b] =>
    match digitsToNat? a, digitsToNat? b with
    | some ma, some mi => some ⟨ma, mi, true⟩
    | _, _ => none
  | _ => none

/-- Modelled from the spec: parsing the `requires` property into a
capability-requirement set (each field maps a capability name to a
minimum version string). -/
def parseRequires : Option JValue → List (String × Version)
| some (.jobj fields) =>
  fields.filterMap fun p =>
    match p.2 with
    | .jstr s => (parseVersionString s).map fun v => (p.1, v)
    | _ => none
| _ => []

/-- Element vocabulary covered by the embedding: the subset of
`ElementTypeRegistry.reset` registrations that the claims exercise
(`Container`, `TextBlock`, `Image`, `TextRun`). -/
inductive ElementType where
| container
| textBlock
| image
| textRun
deriving DecidableEq, Repr

/-- `getJsonTypeName` for the modelled element types. -/
def elementTypeName : ElementType → String
| .container => "Container"
| .textBlock => "TextBlock"
| .image => "Image"
| .textRun => "TextRun"

/-- The element registry lookup performed by
`AdaptiveCard.elementTypeRegistry.createInstance` for the modelled
vocabulary (each of these names is registered by
`ElementTypeRegistry.reset`). -/
def elementRegistryCreate (typeName : String) : Option ElementType :=
  if typeName = "Container" then some .container
  else if typeName = "TextBlock" then some .textBlock
  else if typeName = "Image" then some .image
  else if typeName = "TextRun" then some .textRun
  else none

/-- `CardElement.isStandalone` is true in the base class; `TextRun`
overrides it to false (card-elements.ts lines 848-850 and 1464-1466). -/
def elementIsStandalone : ElementType → Bool
| .textRun => false
| _ => true

/-- `CardElement.isInteractive` is false in the base class and none of
the modelled element types overrides it. -/
def elementIsInteractive : ElementType → Bool := fun _ => false

/-- State of an instantiated card element after `parse`: its type, the
modelled schema subset (`id`, `requires`), the `_shouldFallback` flag and
(for containers) the owned items. -/
inductive ElementState where
| mk : ElementType → Option String → List (String × Version) → Bool →
    List ElementState → ElementState

def ElementState.etype : ElementState → ElementType
| .mk t _ _ _ _ => t

def ElementState.eid : ElementState → Option String
| .mk _ i _ _ _ => i

def ElementState.requires : ElementState → List (String × Version)
| .mk _ _ r _ _ => r

def ElementState.fallbackFlag : ElementState → Bool
| .mk _ _ _ f _ => f

def ElementState.items : ElementState → List ElementState
| .mk _ _ _ _ xs => xs

/-- `CardObject.shouldFallback` (card-elements.ts lines 232-234): the
explicit `_shouldFallback` flag, or not all declared capability
requirements met by the host capability set. -/
def elementShouldFallback (hostCaps : List (String × Version))
    (st : ElementState) : Bool :=
  st.fallbackFlag || !(areAllMet st.requires hostCaps)

/-- Unknown-type error produced by the `createElementInstance` callback
(card-elements.ts lines 131-137). -/
def elementUnknownTypeError (t : String) : IValidationError :=
  ⟨.UnknownElementType,
    "Unknown element type: " ++ t ++ ". Fallback will be used if present."⟩

/-- Forbidden-type error produced by the `createElementInstance` callback
(card-elements.ts lines 138-143). -/
def elementForbiddenTypeError (t : String) : IValidationError :=
  ⟨.ElementTypeNotAllowed,
    "Element type " ++ t ++ " is not allowed in this context."⟩

/-- Unknown-type error produced by the `createActionInstance` callback
(card-elements.ts lines 103-109). -/
def actionUnknownTypeError (t : String) : IValidationError :=
  ⟨.UnknownActionType,
    "Unknown action type: " ++ t ++ ". Fallback will be used if present."⟩

/-- Forbidden-type error produced by the `createActionInstance` callback
(card-elements.ts lines 110-115). -/
def actionForbiddenTypeError (t : String) : IValidationError :=
  ⟨.ActionTypeNotAllowed,
    "Action type " ++ t ++ " is not allowed in this context."⟩

/-- Outcome of `createCardObjectInstance`: the optional instance, whether
`parent.setShouldFallback(true)` was invoked on the caller, and the
errors appended to the error sink, in order. -/
structure CreateResult where
  result : Option ElementState
  parentShouldFallback : Bool
  errors : List IValidationError

/-- JavaScript `toLowerCase`, modelled for the ASCII range. -/
def toLowerCaseM (s : String) : String :=
  String.mk (s.data.map fun c =>
    if c.isUpper then Char.ofNat (c.toNat + 32) else c)

/-- The `"drop"` fallback test of card-elements.ts line 70:
`typeof fallback === "string" && fallback.toLowerCase() === "drop"`. -/
def isDropFallback : Option JValue → Bool
| some (.jstr s) => toLowerCaseM s == "drop"
| _ => false

theorem lookupField_sizeOf {fields : List (String × JValue)} {k : String}
    {v : JValue} (h : lookupField fields k = some v) :
    sizeOf v < sizeOf fields := by
  induction fields with
  | nil => simp [lookupField] at h
  | cons p rest ih =>
    obtain ⟨a, b⟩ := p
    by_cases hak : a = k
    · subst hak
      simp [lookupField] at h
      subst h
      simp only [List.cons.sizeOf_spec, Prod.mk.sizeOf_spec]
      omega
    · simp [lookupField, hak] at h
      have := ih h
      simp only [List.cons.sizeOf_spec, Prod.mk.sizeOf_spec]
      omega

mutual

/-- `createCardObjectInstance` (card-elements.ts lines 31-89)
instantiated at card elements via `createElementInstance`'s callbacks
(lines 120-146): registry lookup, parse, fallback resolution. The
element's virtual `parse` is inlined: the generic schema subset reads
`id` and `requires`, and `Container.parse` (lines 5428-5449) additionally
clears, resets `_shouldFallback` and parses `items` through
`insertItemAt` (lines 5262-5284), whose standalone check can throw. The
exception channel is `Except`. `allowFallback` for children is
`!this.isDesignMode()`, which is true since `AdaptiveCard.designMode`
defaults to false. -/
def createCardObjectInstanceE (hostCaps : List (String × Version))
    (hasParent : Bool) (forbiddenTypeNames : List String) (json : JValue)
    (allowFallback : Bool) : Except String CreateResult :=
  match json with
  | .jobj fields =>
    match getStringValue (lookupField fields "type") with
    | none => .ok ⟨none, false, []⟩
    | some tn =>
      if tn = "" then .ok ⟨none, false, []⟩
      else if tn ∈ forbiddenTypeNames then
        .ok ⟨none, false, [elementForbiddenTypeError tn]⟩
      else
        match elementRegistryCreate tn with
        | none =>
          -- unknown type: record the error; tryToFallback := allowFallback
          if allowFallback then
            let propagate := !jsTruthy (lookupField fields "fallback") && hasParent
            if isDropFallback (lookupField fields "fallback") then
              .ok ⟨none, propagate, [elementUnknownTypeError tn]⟩
            else
              match _hfb : lookupField fields "fallback" with
              | some fbv =>
                if jsTypeofObject (some fbv) then
                  match createCardObjectInstanceE hostCaps hasParent
                      forbiddenTypeNames fbv true with
                  | .ok r =>
                    .ok ⟨r.result, propagate || r.parentShouldFallback,
                      elementUnknownTypeError tn :: r.errors⟩
                  | .error e => .error e
                else .ok ⟨none, propagate, [elementUnknownTypeError tn]⟩
              | none => .ok ⟨none, propagate, [elementUnknownTypeError tn]⟩
          else .ok ⟨none, false, [elementUnknownTypeError tn]⟩
        | some et =>
          -- found: instantiate, set parent, parse
          match elementParseM hostCaps et fields with
          | .error e => .error e
          | .ok (st, perrs) =>
            if elementShouldFallback hostCaps st && allowFallback then
              let propagate := !jsTruthy (lookupField fields "fallback") && hasParent
              if isDropFallback (lookupField fields "fallback") then
                .ok ⟨none, propagate, perrs⟩
              else
                match _hfb : lookupField fields "fallback" with
                | some fbv =>
                  if jsTypeofObject (some fbv) then
                    match createCardObjectInstanceE hostCaps hasParent
                        forbiddenTypeNames fbv true with
                    | .ok r =>
                      .ok ⟨r.result, propagate || r.parentShouldFallback,
                        perrs ++ r.errors⟩
                    | .error e => .error e
                  else .ok ⟨some st, propagate, perrs⟩
                | none => .ok ⟨some st, propagate, perrs⟩
            else .ok ⟨some st, false, perrs⟩
  | _ => .ok ⟨none, false, []⟩
termination_by sizeOf json
decreasing_by
  · have h1 := lookupField_sizeOf _hfb
    simp only [JValue.jobj.sizeOf_spec] at *
    omega
  · simp only [JValue.jobj.sizeOf_spec]
    omega
  · have h1 := lookupField_sizeOf _hfb
    simp only [JValue.jobj.sizeOf_spec] at *
    omega

/-- The virtual `parse` of the modelled element types applied to a JSON
object's fields: the generic schema subset reads `id` and `requires`
(`CardObject.idProperty`, `CardObject.requiresProperty`), and
`Container.parse` (card-elements.ts lines 5428-5449) additionally clears
its items, resets `_shouldFallback` to false and parses the `items`
array. -/
def elementParseM (hostCaps : List (String × Version)) (et : ElementType)
    (fields : List (String × JValue)) :
    Except String (ElementState × List IValidationError) :=
  let pid := getStringValue (lookupField fields "id")
  let preq := parseRequires (lookupField fields "requires")
  match et with
  | .container =>
    match _hitems : lookupField fields "items" with
    | some (.jarr xs) =>
      match parseItemsLoop hostCaps xs with
      | .ok r => .ok (⟨.container, pid, preq, r.2.1, r.1⟩, r.2.2)
      | .error e => .error e
    | _ => .ok (⟨.container, pid, preq, false, []⟩, [])
  | lt => .ok (⟨lt, pid, preq, false, []⟩, [])
termination_by sizeOf fields
decreasing_by
  have h1 := lookupField_sizeOf _hitems
  simp only [JValue.jarr.sizeOf_spec] at *
  omega

/-- The `items` loop of `Container.parse` (lines 5436-5448) together with
`insertItemAt` (lines 5262-5284, called with `forceInsert = true`):
accumulates inserted items, the container's `_shouldFallback` flag as set
by children propagating fallback, and the error sink. -/
def parseItemsLoop (hostCaps : List (String × Version)) :
    List JValue →
    Except String (List ElementState × Bool × List IValidationError)
| [] => .ok ([], false, [])
| x :: rest =>
  match createCardObjectInstanceE hostCaps true [] x true with
  | .error e => .error e
  | .ok cr =>
    match cr.result with
    | some e =>
      if elementIsStandalone e.etype then
        match parseItemsLoop hostCaps rest with
        | .ok r =>
          .ok (e :: r.1, cr.parentShouldFallback || r.2.1, cr.errors ++ r.2.2)
        | .error err => .error err
      else
        .error ("Elements of type " ++ elementTypeName e.etype ++
          " cannot be used as standalone elements.")
    | none =>
      match parseItemsLoop hostCaps rest with
      | .ok r => .ok (r.1, cr.parentShouldFallback || r.2.1, cr.errors ++ r.2.2)
      | .error err => .error err
termination_by xs => sizeOf xs
decreasing_by
  all_goals
    simp only [List.cons.sizeOf_spec]
    omega

end

/-- `createElementInstance` (card-elements.ts lines 120-146): the generic
instantiation with an empty forbidden-type list ("Forbidden types not
supported for elements for now"). -/
def createElementInstance (hostCaps : List (String × Version))
    (hasParent : Bool) (json : JValue) (allowFallback : Bool) :
    Except String CreateResult :=
  createCardObjectInstanceE hostCaps hasParent [] json allowFallback

/-! Action-side instantiation: `createCardObjectInstance` instantiated at
actions via the `createActionInstance` callbacks (card-elements.ts lines
91-118). -/

/-- Action vocabulary registered by `ActionTypeRegistry.reset`
(card-elements.ts lines 6423-6432). -/
inductive ActionType where
| openUrl
| submit
| showCard
| toggleVisibility
deriving DecidableEq, Repr

/-- `getJsonTypeName` of the registered action types (their static
`JsonTypeName` constants). -/
def actionTypeName : ActionType → String
| .openUrl => "Action.OpenUrl"
| .submit => "Action.Submit"
| .showCard => "Action.ShowCard"
| .toggleVisibility => "Action.ToggleVisibility"

/-- The action registry lookup performed by
`AdaptiveCard.actionTypeRegistry.createInstance`. -/
def actionRegistryCreate (typeName : String) : Option ActionType :=
  if typeName = "Action.OpenUrl" then some .openUrl
  else if typeName = "Action.Submit" then some .submit
  else if typeName = "Action.ShowCard" then some .showCard
  else if typeName = "Action.ToggleVisibility" then some .toggleVisibility
  else none

/-- State of an instantiated action after `parse`: the modelled schema
subset is `id`, `requires` (from `CardObject`) and `title`
(`Action.titleProperty`). `ShowCardAction`'s nested card is outside the
modelled subset. -/
structure ActionState where
  atype : ActionType
  aid : Option String
  title : Option String
  requires : List (String × Version)
  fallbackFlag : Bool
deriving DecidableEq, Repr

/-- The virtual `parse` of an action (`Action.parse`, card-elements.ts
lines 3753-3757, is the generic schema-driven parse plus a host event
hook): reads the modelled schema subset. It cannot throw. -/
def actionParse (t : ActionType) (fields : List (String × JValue)) :
    ActionState :=
  ⟨t, getStringValue (lookupField fields "id"),
    getStringValue (lookupField fields "title"),
    parseRequires (lookupField fields "requires"), false⟩

/-- `CardObject.shouldFallback` (lines 232-234) for an action. -/
def actionShouldFallback (hostCaps : List (String × Version))
    (a : ActionState) : Bool :=
  a.fallbackFlag || !(areAllMet a.requires hostCaps)

/-- Outcome of the action-side `createCardObjectInstance`. -/
structure ActionCreateResult where
  result : Option ActionState
  parentShouldFallback : Bool
  errors : List IValidationError
deriving DecidableEq, Repr

/-- `createCardObjectInstance` (lines 31-89) instantiated at actions via
`createActionInstance` (lines 91-118): same control flow as the element
side, with the action registry, the action parse and the action error
callback. Action parse cannot throw, so no exception channel is
needed. -/
def createActionInstanceM (hostCaps : List (String × Version))
    (hasParent : Bool) (forbiddenActionTypes : List String) (json : JValue)
    (allowFallback : Bool) : ActionCreateResult :=
  match json with
  | .jobj fields =>
    match getStringValue (lookupField fields "type") with
    | none => ⟨none, false, []⟩
    | some tn =>
      if tn = "" then ⟨none, false, []⟩
      else if tn ∈ forbiddenActionTypes then
        ⟨none, false, [actionForbiddenTypeError tn]⟩
      else
        match actionRegistryCreate tn with
        | none =>
          if allowFallback then
            let propagate := !jsTruthy (lookupField fields "fallback") && hasParent
            if isDropFallback (lookupField fields "fallback") then
              ⟨none, propagate, [actionUnknownTypeError tn]⟩
            else
              match _hfb : lookupField fields "fallback" with
              | some fbv =>
                if jsTypeofObject (some fbv) then
                  let r := createActionInstanceM hostCaps hasParent
                    forbiddenActionTypes fbv true
                  ⟨r.result, propagate || r.parentShouldFallback,
                    actionUnknownTypeError tn :: r.errors⟩
                else ⟨none, propagate, [actionUnknownTypeError tn]⟩
              | none => ⟨none, propagate, [actionUnknownTypeError tn]⟩
          else ⟨none, false, [actionUnknownTypeError tn]⟩
        | some t =>
          let a := actionParse t fields
          if actionShouldFallback hostCaps a && allowFallback then
            let propagate := !jsTruthy (lookupField fields "fallback") && hasParent
            if isDropFallback (lookupField fields "fallback") then
              ⟨none, propagate, []⟩
            else
              match _hfb : lookupField fields "fallback" with
              | some fbv =>
                if jsTypeofObject (some fbv) then
                  let r := createActionInstanceM hostCaps hasParent
                    forbiddenActionTypes fbv true
                  ⟨r.result, propagate || r.parentShouldFallback, r.errors⟩
                else ⟨some a, propagate, []⟩
              | none => ⟨some a, propagate, []⟩
          else ⟨some a, false, []⟩
  | _ => ⟨none, false, []⟩
termination_by sizeOf json
decreasing_by
  · have h1 := lookupField_sizeOf _hfb
    simp only [JValue.jobj.sizeOf_spec] at *
    omega
  · have h1 := lookupField_sizeOf _hfb
    simp only [JValue.jobj.sizeOf_spec] at *
    omega

/-! The `ActionCollection` parse and serialization (card-elements.ts
lines 4529-4561). -/

/-- The loop of `ActionCollection.parse` (lines 4532-4545): per item the
action instantiation with an empty forbidden list and fallback allowed
(`!this._owner.isDesignMode()` is true by default); instantiated actions
are appended through `addAction` (lines 4769-4786), whose guard passes
because the freshly created action's parent is the owner. -/
def actionCollectionParseLoop (hostCaps : List (String × Version)) :
    List JValue → List ActionState × List IValidationError
| [] => ([], [])
| x :: rest =>
  let r := createActionInstanceM hostCaps true [] x true
  let rec0 := actionCollectionParseLoop hostCaps rest
  match r.result with
  | some a => (a :: rec0.1, r.errors ++ rec0.2)
  | none => (rec0.1, r.errors ++ rec0.2)

/-- `ActionCollection.parse` (lines 4529-4546): clears, then parses items
when the value is an array. -/
def actionCollectionParse (hostCaps : List (String × Version)) :
    Option JValue → List ActionState × List IValidationError
| some (.jarr xs) => actionCollectionParseLoop hostCaps xs
| _ => ([], [])

/-- An optional string property as a serialized field list: present when
set, omitted when at its default. -/
def optStrField (key : String) : Option String → List (String × JValue)
| some s => [(key, JValue.jstr s)]
| none => []

/-- Modelled from the spec: `SerializableObject.toJSON` (serialization.ts
is not under src/) emits, in schema order, the `type` discriminator and
every property whose value differs from its default; default-valued keys
are omitted. Modelled action schema subset: `type`, `id`, `title`. -/
def actionToJSON (a : ActionState) : JValue :=
  .jobj ([("type", .jstr (actionTypeName a.atype))] ++
    optStrField "id" a.aid ++ optStrField "title" a.title)

/-- `ActionCollection.toJSON` (lines 4548-4561): an array of the items'
serializations when non-empty, `undefined` otherwise. -/
def actionCollectionToJSON (items : List ActionState) : Option JValue :=
  if 0 < items.length then some (.jarr (items.map actionToJSON)) else none

/-- Specification-side minimal serialization for claim C5, written from
the spec's words: the source JSON restricted to the modelled schema's
keys, with default-valued (absent or non-string) entries removed, in
canonical schema order (JSON object deep-equality does not depend on key
order). -/
def specMinimalActionJson (fields : List (String × JValue)) : JValue :=
  .jobj (optStrField "type" (getStringValue (lookupField fields "type")) ++
    optStrField "id" (getStringValue (lookupField fields "id")) ++
    optStrField "title" (getStringValue (lookupField fields "title")))

/-! The validation pass (card-elements.ts lines 148-262 and 2074-2104).
Card objects are identified by their visit index in the pre-order
validation walk, which identifies object references uniquely. -/

/-- `ValidationFailure` (lines 148-152): a failing card object with its
ordered error list. -/
structure ValidationFailureM where
  cardObject : Nat
  errors : List IValidationError
deriving DecidableEq, Repr

/-- `ValidationResults` (lines 154-183): the id occurrence counter
(`allIds : Dictionary<number>`, an absent key modelled as count 0, which
is faithful because stored counts are always positive) and the grouped
failures. -/
structure ValidationResultsM where
  allIds : String → Nat
  failures : List ValidationFailureM

/-- The empty `ValidationResults` created by `validateProperties`. -/
def emptyValidationResults : ValidationResultsM := ⟨fun _ => 0, []⟩

/-- `ValidationResults.addFailure` (lines 168-182) on the failure list:
append the error to the existing failure for this card object, or push a
new failure at the end. -/
def addFailureList : List ValidationFailureM → Nat → IValidationError →
    List ValidationFailureM
| [], obj, e => [⟨obj, [e]⟩]
| f :: rest, obj, e =>
  if f.cardObject = obj then ⟨f.cardObject, f.errors ++ [e]⟩ :: rest
  else f :: addFailureList rest obj e

/-- `ValidationResults.addFailure` (lines 168-182). -/
def addFailure (ctx : ValidationResultsM) (obj : Nat)
    (e : IValidationError) : ValidationResultsM :=
  ⟨ctx.allIds, addFailureList ctx.failures obj e⟩

/-- `CardObject.internalValidateProperties` (lines 236-254): duplicate id
detection with an occurrence counter; the failure is recorded only when
the pre-increment count is exactly 1. -/
def cardObjectValidateId (obj : Nat) (oid : Option String)
    (ctx : ValidationResultsM) : ValidationResultsM :=
  match oid with
  | none => ctx
  | some s =>
    if s = "" then ctx
    else if 0 < ctx.allIds s then
      let ctx1 :=
        if ctx.allIds s = 1 then
          addFailure ctx obj ⟨.DuplicateId, "Duplicate Id: " ++ s⟩
        else ctx
      ⟨fun k => if k = s then ctx1.allIds k + 1 else ctx1.allIds k,
        ctx1.failures⟩
    else ⟨fun k => if k = s then 1 else ctx.allIds k, ctx.failures⟩

/-- `CardElementContainer.isElementAllowed` (lines 2024-2038). -/
def isElementAllowedM (supportsInteractivity interactive : Bool)
    (typeName : String) (forbidden : List String) : Bool :=
  if !supportsInteractivity && interactive then false
  else if typeName ∈ forbidden then false
  else true

mutual

/-- The virtual `internalValidateProperties` walk over a parsed element
tree. Each node receives its pre-order visit index as identity; the
function returns the updated results and the next free index.
`CardObject.internalValidateProperties` runs first; container types then
run the per-child checks and recursion of
`CardElementContainer.internalValidateProperties` (lines 2074-2104) with
the base `getForbiddenElementTypes()` of `[]` (no subtype under src/
overrides it); no `selectAction` is modelled. -/
def elementValidateWalk (si : Bool) :
    ElementState → Nat → ValidationResultsM → ValidationResultsM × Nat
| .mk t oid _ _ xs, idx, ctx =>
  let ctx1 := cardObjectValidateId idx oid ctx
  match t with
  | .container => childrenValidateWalk si idx [] xs (idx + 1) ctx1
  | _ => (ctx1, idx + 1)
termination_by st => sizeOf st
decreasing_by
  simp only [ElementState.mk.sizeOf_spec]
  omega

/-- The per-child loop of `CardElementContainer.internalValidateProperties`
(lines 2077-2099): the interactivity check, the allowed-type check (both
failures attach to the container itself), then recursion into the
child. -/
def childrenValidateWalk (si : Bool) (parentIdx : Nat)
    (forbidden : List String) :
    List ElementState → Nat → ValidationResultsM → ValidationResultsM × Nat
| [], next, ctx => (ctx, next)
| c :: rest, next, ctx =>
  let ctx1 :=
    if !si && elementIsInteractive c.etype then
      addFailure ctx parentIdx
        ⟨.InteractivityNotAllowed, "Interactivity is not allowed."⟩
    else ctx
  let ctx2 :=
    if !(isElementAllowedM si (elementIsInteractive c.etype)
        (elementTypeName c.etype) forbidden) then
      addFailure ctx1 parentIdx
        ⟨.InteractivityNotAllowed,
          "Elements of type " ++ elementTypeName c.etype ++
            " are not allowed in this container."⟩
    else ctx1
  let p := elementValidateWalk si c next ctx2
  childrenValidateWalk si parentIdx forbidden rest p.2 p.1
termination_by xs => sizeOf xs
decreasing_by
  · simp only [List.cons.sizeOf_spec]
    omega
  · simp only [List.cons.sizeOf_spec]
    omega

end

/-- `CardObject.validateProperties` (lines 256-262) for an element tree:
fresh results, then the virtual `internalValidateProperties` walk. The
host's `supportsInteractivity` is true in the default host
configuration. -/
def validatePropertiesM (st : ElementState) : ValidationResultsM :=
  (elementValidateWalk true st 0 emptyValidationResults).1

/-- `CardElementContainer.internalValidateProperties` (lines 2074-2104)
run as `validateProperties` on a container whose virtual
`getForbiddenElementTypes()` returns `forbidden` (the extensibility point
claim C8 posits); children recurse through the standard walk. -/
def containerValidateRoot (si : Bool) (forbidden : List String)
    (st : ElementState) : ValidationResultsM :=
  match st with
  | .mk _ oid _ _ xs =>
    let ctx1 := cardObjectValidateId 0 oid emptyValidationResults
    (childrenValidateWalk si 0 forbidden xs 1 ctx1).1

/-! The generic `TypeRegistry` (card-elements.ts lines 6335-6398). A
factory is modelled by the instance it produces, since the registered
factories are zero-argument closures. -/

/-- `ITypeRegistration` (lines 6188-6192). `TargetVersion` is either a
concrete version or `"*"`, modelled as `Option Version` with `none` for
`"*"` (the default). -/
structure TypeRegistration (α : Type) where
  typeName : String
  schemaVersion : Option Version
  createInstance : α
deriving DecidableEq, Repr

/-- `TypeRegistry.findTypeRegistration` (lines 6338-6346): first
match. -/
def findTypeRegistration {α : Type} :
    List (TypeRegistration α) → String → Option (TypeRegistration α)
| [], _ => none
| r :: rest, tn =>
  if r.typeName = tn then some r else findTypeRegistration rest tn

/-- `TypeRegistry.registerType` (lines 6358-6373): replace the existing
registration's factory in place (its schema version is kept), or push a
new registration at the end. -/
def registerTypeM {α : Type} (items : List (TypeRegistration α))
    (tn : String) (factory : α) (schemaVersion : Option Version) :
    List (TypeRegistration α) :=
  match items with
  | [] => [⟨tn, schemaVersion, factory⟩]
  | r :: rest =>
    if r.typeName = tn then ⟨r.typeName, r.schemaVersion, factory⟩ :: rest
    else r :: registerTypeM rest tn factory schemaVersion

/-- `TypeRegistry.unregisterType` (lines 6375-6383): splice out the first
registration with the given name. -/
def unregisterTypeM {α : Type} (items : List (TypeRegistration α))
    (tn : String) : List (TypeRegistration α) :=
  match items with
  | [] => []
  | r :: rest =>
    if r.typeName = tn then rest else r :: unregisterTypeM rest tn

/-- `TypeRegistry.createInstance` (lines 6385-6389). -/
def registryCreateInstance {α : Type} (items : List (TypeRegistration α))
    (tn : String) : Option α :=
  (findTypeRegistration items tn).map (·.createInstance)

/-- A sequence of `registerType` / `unregisterType` calls. -/
inductive RegistryOp (α : Type) where
| register (tn : String) (factory : α) (schemaVersion : Option Version)
| unregister (tn : String)

/-- Apply one registry operation. -/
def applyRegistryOp {α : Type} (items : List (TypeRegistration α)) :
    RegistryOp α → List (TypeRegistration α)
| .register tn f sv => registerTypeM items tn f sv
| .unregister tn => unregisterTypeM items tn

/-- Apply a sequence of registry operations in order. -/
def applyRegistryOps {α : Type} (items : List (TypeRegistration α))
    (ops : List (RegistryOp α)) : List (TypeRegistration α) :=
  ops.foldl applyRegistryOp items

/-- At most one registration per type name. -/
def registryNamesUnique {α : Type} (items : List (TypeRegistration α)) :
    Prop :=
  (items.map (·.typeName)).Nodup

/-- Specification of `createInstance` after an operation sequence: the
factory of the most recent `registerType` for the name that was not
followed by an `unregisterType` of it, starting from the lookup into the
initial state. -/
def registryLookupSpec {α : Type} (ops : List (RegistryOp α))
    (tn : String) (init : Option α) : Option α :=
  ops.foldl
    (fun acc op =>
      match op with
      | .register m f _ => if m = tn then some f else acc
      | .unregister m => if m = tn then none else acc)
    init

/-! The `AdaptiveCard` version gate (card-elements.ts lines 6525-6538,
6617-6645 and 6687-6689). -/

/-- State of a parsed `AdaptiveCard`: the stored `type` discriminator,
the parsed `version`, and the `CardObject` / container state. Actions
are not modelled (an empty `ActionCollection` contributes no validation
failures). -/
structure AdaptiveCardState where
  typeDiscriminator : Option String
  version : Option Version
  cid : Option String
  requires : List (String × Version)
  fallbackFlag : Bool
  body : List ElementState

/-- `AdaptiveCard.isVersionSupported` (lines 6525-6538). `latest` models
the `Versions.latest` constant of shared.ts (not under src/); the spec
describes it as the "latest supported" constant with major.minor
ordering. `bypass` models the virtual `bypassVersionCheck`, a constant
false for `AdaptiveCard` (line 6574). -/
def isVersionSupportedM (bypass : Bool) (latest : Version)
    (version : Option Version) : Bool :=
  if bypass then true
  else
    match version with
    | none => false
    | some v =>
      !(!v.isValid || latest.major < v.major ||
        (latest.major == v.major && latest.minor < v.minor))

/-- `AdaptiveCard.internalValidateProperties` (lines 6617-6645) run as
`validateProperties`: the super chain (`CardObject` id check, the
container child walk with an empty `ActionCollection`), then the card
type check and the version checks. The card itself has visit index 0. -/
def adaptiveCardValidateM (si : Bool) (latest : Version)
    (card : AdaptiveCardState) : ValidationResultsM :=
  let ctx1 := cardObjectValidateId 0 card.cid emptyValidationResults
  let ctx2 := (childrenValidateWalk si 0 [] card.body 1 ctx1).1
  let ctx3 :=
    if card.typeDiscriminator ≠ some "AdaptiveCard" then
      addFailure ctx2 0
        ⟨.MissingCardType,
          "Invalid or missing card type. Make sure the card's type property is set to \"AdaptiveCard\"."⟩
    else ctx2
  match card.version with
  | none =>
    addFailure ctx3 0
      ⟨.PropertyCantBeNull, "The version property must be specified."⟩
  | some v =>
    if !(isVersionSupportedM false latest (some v)) then
      addFailure ctx3 0
        ⟨.UnsupportedCardVersion,
          "The specified card version (" ++ versionToString v ++
            ") is not supported. The maximum supported card version is " ++
            versionToString latest⟩
    else ctx3

/-- `AdaptiveCard.shouldFallback` (lines 6687-6689): the `CardObject`
behaviour, or the version being unsupported. -/
def adaptiveCardShouldFallbackM (hostCaps : List (String × Version))
    (latest : Version) (card : AdaptiveCardState) : Bool :=
  (card.fallbackFlag || !(areAllMet card.requires hostCaps)) ||
    !(isVersionSupportedM false latest card.version)

/-! Specification-side machinery for claim C2: the validation walk
flattened to its visit order, and the "second occurrence" description of
duplicate-id reporting. -/

mutual

/-- The visit order of the validation walk: the (visit index, id) pairs
in pre-order, together with the next free index. -/
def walkIds : ElementState → Nat → List (Nat × Option String) × Nat
| .mk t oid _ _ xs, idx =>
  match t with
  | .container =>
    let r := walkIdsList xs (idx + 1)
    ((idx, oid) :: r.1, r.2)
  | _ => ([(idx, oid)], idx + 1)
termination_by st => sizeOf st
decreasing_by
  simp only [ElementState.mk.sizeOf_spec]
  omega

/-- Visit order of a list of sibling subtrees. -/
def walkIdsList : List ElementState → Nat → List (Nat × Option String) × Nat
| [], next => ([], next)
| c :: rest, next =>
  let r1 := walkIds c next
  let r2 := walkIdsList rest r1.2
  (r1.1 ++ r2.1, r2.2)
termination_by xs => sizeOf xs
decreasing_by
  · simp only [List.cons.sizeOf_spec]
    omega
  · simp only [List.cons.sizeOf_spec]
    omega

end

/-- The flat id-only validation fold: `CardObject.internalValidateProperties`
applied along a visit-order list. -/
def validateIdsFold :
    List (Nat × Option String) → ValidationResultsM → ValidationResultsM
| [], ctx => ctx
| (i, oid) :: rest, ctx => validateIdsFold rest (cardObjectValidateId i oid ctx)

/-- Number of occurrences of the id `s` in a visit-order list. -/
def countIdIn (l : List (Nat × Option String)) (s : String) : Nat :=
  (l.filter (fun p => p.2 == some s)).length

/-- The id occurrence counter determined by a processed visit-order
list (the empty id is never counted). -/
def idsCountFun (pre : List (Nat × Option String)) : String → Nat :=
  fun s => if s = "" then 0 else countIdIn pre s

/-- The report of one visit entry relative to the already processed
entries `pre`: a single DuplicateId failure exactly when the entry
carries a non-empty id with exactly one earlier occurrence (the entry is
the second occurrence). -/
def dupHead (pre : List (Nat × Option String)) (i : Nat) :
    Option String → List ValidationFailureM
| some s =>
  if s ≠ "" ∧ countIdIn pre s = 1 then
    [⟨i, [⟨.DuplicateId, "Duplicate Id: " ++ s⟩]⟩]
  else []
| none => []

/-- Specification of duplicate-id reporting, relative to the already
processed entries `pre`: a node is reported exactly when it is the
second occurrence of a non-empty id, with a single DuplicateId error
attached to that node. -/
def dupSpecAux (pre : List (Nat × Option String)) :
    List (Nat × Option String) → List ValidationFailureM
| [] => []
| (i, oid) :: rest => dupHead pre i oid ++ dupSpecAux (pre ++ [(i, oid)]) rest

/-- Duplicate-id reports of a whole visit-order list: exactly the second
occurrences of each non-empty id. -/
def dupSpec (l : List (Nat × Option String)) : List ValidationFailureM :=
  dupSpecAux [] l

/-- The validation-context state determined by a processed visit-order
list and a failure list. -/
def ctxState (pre : List (Nat × Option String))
    (fs : List ValidationFailureM) : ValidationResultsM :=
  ⟨idsCountFun pre, fs⟩

/-! Theorems. First, step lemmas that unfold one branch of the mutually
recursive instantiation functions under explicit hypotheses; concrete
evaluations chain these steps. -/

/-- Instantiation of a registered type whose parse succeeds and that does
not attempt fallback: the parsed instance is returned. -/
theorem create_known_ok {hostCaps : List (String × Version)}
    {hasParent : Bool} {forbidden : List String} {allowFallback : Bool}
    {fields : List (String × JValue)} {tn : String} {et : ElementType}
    {st : ElementState} {perrs : List IValidationError}
    (h1 : getStringValue (lookupField fields "type") = some tn)
    (h2 : tn ≠ "") (h3 : tn ∉ forbidden)
    (h4 : elementRegistryCreate tn = some et)
    (h5 : elementParseM hostCaps et fields = .ok (st, perrs))
    (h6 : (elementShouldFallback hostCaps st && allowFallback) = false) :
    createCardObjectInstanceE hostCaps hasParent forbidden (.jobj fields)
      allowFallback = .ok ⟨some st, false, perrs⟩ := by
  rw [createCardObjectInstanceE]
  simp [h1, h2, h3, h4, h5, h6]

/-- Instantiation of a registered type whose parse throws: the exception
propagates. -/
theorem create_known_error {hostCaps : List (String × Version)}
    {hasParent : Bool} {forbidden : List String} {allowFallback : Bool}
    {fields : List (String × JValue)} {tn : String} {et : ElementType}
    {e : String}
    (h1 : getStringValue (lookupField fields "type") = some tn)
    (h2 : tn ≠ "") (h3 : tn ∉ forbidden)
    (h4 : elementRegistryCreate tn = some et)
    (h5 : elementParseM hostCaps et fields = .error e) :
    createCardObjectInstanceE hostCaps hasParent forbidden (.jobj fields)
      allowFallback = .error e := by
  rw [createCardObjectInstanceE]
  simp [h1, h2, h3, h4, h5]

/-- `Container.parse` reduced to its items loop when `items` is an
array. -/
theorem elementParseM_container {hostCaps : List (String × Version)}
    {fields : List (String × JValue)} {xs : List JValue}
    (h : lookupField fields "items" = some (.jarr xs)) :
    elementParseM hostCaps .container fields =
      (match parseItemsLoop hostCaps xs with
       | .ok r =>
         .ok (⟨.container, getStringValue (lookupField fields "id"),
           parseRequires (lookupField fields "requires"), r.2.1, r.1⟩, r.2.2)
       | .error e => .error e) := by
  rw [elementParseM.eq_def]
  repeat' split
  all_goals simp_all

/-- Parse of a non-container element: the generic schema subset only. -/
theorem elementParseM_leaf {hostCaps : List (String × Version)}
    {fields : List (String × JValue)} {et : ElementType}
    (h : et ≠ .container) :
    elementParseM hostCaps et fields =
      .ok (⟨et, getStringValue (lookupField fields "id"),
        parseRequires (lookupField fields "requires"), false, []⟩, []) := by
  rw [elementParseM.eq_def]
  cases et <;> simp_all

/-- The empty items loop. -/
theorem parseItemsLoop_nil (hostCaps : List (String × Version)) :
    parseItemsLoop hostCaps [] = .ok ([], false, []) := by
  rw [parseItemsLoop]

/-- An instantiated non-standalone item makes `insertItemAt` throw. -/
theorem parseItemsLoop_cons_nonstandalone
    {hostCaps : List (String × Version)} {x : JValue} {rest : List JValue}
    {cr : CreateResult} {e : ElementState}
    (h1 : createCardObjectInstanceE hostCaps true [] x true = .ok cr)
    (h2 : cr.result = some e)
    (h3 : elementIsStandalone e.etype = false) :
    parseItemsLoop hostCaps (x :: rest) =
      .error ("Elements of type " ++ elementTypeName e.etype ++
        " cannot be used as standalone elements.") := by
  rw [parseItemsLoop]
  simp [h1, h2, h3]

/-- An instantiated standalone item is inserted and the loop continues. -/
theorem parseItemsLoop_cons_standalone
    {hostCaps : List (String × Version)} {x : JValue} {rest : List JValue}
    {cr : CreateResult} {e : ElementState}
    (h1 : createCardObjectInstanceE hostCaps true [] x true = .ok cr)
    (h2 : cr.result = some e)
    (h3 : elementIsStandalone e.etype = true) :
    parseItemsLoop hostCaps (x :: rest) =
      (match parseItemsLoop hostCaps rest with
       | .ok r =>
         .ok (e :: r.1, cr.parentShouldFallback || r.2.1, cr.errors ++ r.2.2)
       | .error err => .error err) := by
  rw [parseItemsLoop]
  simp [h1, h2, h3]

/-- Claim C1: for every JSON object fragment whose `type` string is in
the `forbiddenTypeNames` list passed to `createCardObjectInstance`, the
function records the forbidden-type error (`ElementTypeNotAllowed` on the
element side, `ActionTypeNotAllowed` on the action side) as the only
error, returns no instance, and attempts no fallback regardless of any
`fallback` key — in contrast to the unknown-type path, where an
object-valued `fallback` is recursively instantiated as a substitute. -/
theorem C1_forbidden_type_never_falls_back :
    (∀ (hostCaps : List (String × Version)) (hasParent : Bool)
        (forbidden : List String) (allowFallback : Bool)
        (fields : List (String × JValue)) (tn : String),
      getStringValue (lookupField fields "type") = some tn → tn ≠ "" →
      tn ∈ forbidden →
      createCardObjectInstanceE hostCaps hasParent forbidden (.jobj fields)
        allowFallback = .ok ⟨none, false, [elementForbiddenTypeError tn]⟩) ∧
    (∀ (hostCaps : List (String × Version)) (hasParent : Bool)
        (forbidden : List String) (allowFallback : Bool)
        (fields : List (String × JValue)) (tn : String),
      getStringValue (lookupField fields "type") = some tn → tn ≠ "" →
      tn ∈ forbidden →
      createActionInstanceM hostCaps hasParent forbidden (.jobj fields)
        allowFallback = ⟨none, false, [actionForbiddenTypeError tn]⟩) ∧
    (∀ (hostCaps : List (String × Version)) (hasParent : Bool)
        (forbidden : List String) (fields fb : List (String × JValue))
        (tn : String),
      getStringValue (lookupField fields "type") = some tn → tn ≠ "" →
      tn ∉ forbidden → elementRegistryCreate tn = none →
      lookupField fields "fallback" = some (.jobj fb) →
      createCardObjectInstanceE hostCaps hasParent forbidden (.jobj fields)
        true =
        (match createCardObjectInstanceE hostCaps hasParent forbidden
            (.jobj fb) true with
         | .ok r =>
           .ok ⟨r.result, r.parentShouldFallback,
             elementUnknownTypeError tn :: r.errors⟩
         | .error e => .error e)) := by
  refine ⟨?_, ?_, ?_⟩
  · intro hostCaps hasParent forbidden allowFallback fields tn h1 h2 h3
    rw [createCardObjectInstanceE]
    simp [h1, h2, h3]
  · intro hostCaps hasParent forbidden allowFallback fields tn h1 h2 h3
    rw [createActionInstanceM]
    simp [h1, h2, h3]
  · intro hostCaps hasParent forbidden fields fb tn h1 h2 h3 h4 h5
    rw [createCardObjectInstanceE]
    simp [h1, h2, h3, h4, h5, isDropFallback, jsTruthy]
    split <;> simp_all [jsTypeofObject]

/-- Witness for C1 at a concrete forbidden fragment: an `Image` fragment
with an object fallback, instantiated with `Image` forbidden, yields no
instance and only the forbidden-type error. -/
theorem C1_forbidden_type_never_falls_back_witness :
    createCardObjectInstanceE [] true ["Image"]
      (.jobj [("type", .jstr "Image"),
        ("fallback", .jobj [("type", .jstr "TextBlock")])]) true =
      .ok ⟨none, false, [elementForbiddenTypeError "Image"]⟩ :=
  C1_forbidden_type_never_falls_back.1 [] true ["Image"] true _ "Image" rfl
    (by decide) (by decide)

/-- Claim C3 (the code throws on attacker JSON): parsing the JSON
fragment with a `Container` whose `items` contain a `TextRun` raises the
exception of `insertItemAt` line 5278, because `TextRun` is registered in
the element registry but is not standalone — contradicting the claim
that parsing untrusted JSON never throws. -/
theorem C3_parse_throws_on_textRun_item :
    createElementInstance [] false
      (.jobj [("type", .jstr "Container"),
        ("items", .jarr [.jobj [("type", .jstr "TextRun")]])]) true =
      .error
        "Elements of type TextRun cannot be used as standalone elements." := by
  have htr : createCardObjectInstanceE [] true []
      (.jobj [("type", .jstr "TextRun")]) true =
      .ok ⟨some ⟨.textRun, none, [], false, []⟩, false, []⟩ :=
    create_known_ok rfl (by decide) (by decide) (by decide)
      (elementParseM_leaf (by decide)) (by decide)
  have hloop : parseItemsLoop [] [.jobj [("type", .jstr "TextRun")]] =
      .error
        "Elements of type TextRun cannot be used as standalone elements." := by
    have h : parseItemsLoop [] [.jobj [("type", .jstr "TextRun")]] =
        .error ("Elements of type " ++
          elementTypeName (ElementState.mk .textRun none [] false []).etype ++
          " cannot be used as standalone elements.") :=
      parseItemsLoop_cons_nonstandalone htr rfl (by decide)
    simpa [elementTypeName, ElementState.etype] using h
  have hx : lookupField
      [("type", JValue.jstr "Container"),
        ("items", JValue.jarr [JValue.jobj [("type", JValue.jstr "TextRun")]])]
      "items" =
      some (JValue.jarr [JValue.jobj [("type", JValue.jstr "TextRun")]]) := rfl
  have hparse : elementParseM [] .container
      [("type", .jstr "Container"),
        ("items", .jarr [.jobj [("type", .jstr "TextRun")]])] =
      .error
        "Elements of type TextRun cannot be used as standalone elements." := by
    rw [elementParseM_container hx, hloop]
  exact create_known_error rfl (by decide) (by decide) (by decide) hparse

/-- Claim C6: parsing the fragment with unknown type `Foo` and string
fallback `"drop"` as a child with fallback allowed yields no element,
raises no exception (the result is an `ok`), and records exactly one
`UnknownElementType` error. -/
theorem C6_unknown_type_with_drop_fallback :
    createElementInstance [] true
      (.jobj [("type", .jstr "Foo"), ("fallback", .jstr "drop")]) true =
      .ok ⟨none, false,
        [⟨.UnknownElementType,
          "Unknown element type: Foo. Fallback will be used if present."⟩]⟩ := by
  have hdrop : isDropFallback (some (JValue.jstr "drop")) = true := by decide
  simp [createElementInstance, createCardObjectInstanceE, lookupField,
    getStringValue, hdrop, jsTruthy, elementRegistryCreate,
    elementUnknownTypeError]

/-- Claim C7: when the instantiated object's `shouldFallback()` is true
after parse, fallback is allowed, and the fragment has no `fallback` key,
the parent's should-fallback flag is set and the already parsed instance
itself is returned unchanged. -/
theorem C7_absent_fallback_propagates_to_parent :
    ∀ (hostCaps : List (String × Version)) (forbidden : List String)
      (fields : List (String × JValue)) (tn : String) (et : ElementType)
      (st : ElementState) (perrs : List IValidationError),
      getStringValue (lookupField fields "type") = some tn → tn ≠ "" →
      tn ∉ forbidden → elementRegistryCreate tn = some et →
      elementParseM hostCaps et fields = .ok (st, perrs) →
      elementShouldFallback hostCaps st = true →
      lookupField fields "fallback" = none →
      createCardObjectInstanceE hostCaps true forbidden (.jobj fields) true =
        .ok ⟨some st, true, perrs⟩ := by
  intro hostCaps forbidden fields tn et st perrs h1 h2 h3 h4 h5 h6 h7
  rw [createCardObjectInstanceE]
  simp [h1, h2, h3, h4, h5, h6, h7, isDropFallback, jsTruthy]
  split <;> simp_all

/-- Witness for C7: a `TextBlock` declaring an unmet capability
requirement, with no `fallback` key and a parent, is kept and the parent
flag is set. -/
theorem C7_absent_fallback_propagates_to_parent_witness :
    createCardObjectInstanceE [] true []
      (.jobj [("type", .jstr "TextBlock"),
        ("requires", .jobj [("CapX", .jstr "1.0")])]) true =
      .ok ⟨some ⟨.textBlock, none, [("CapX", ⟨1, 0, true⟩)], false, []⟩,
        true, []⟩ :=
  C7_absent_fallback_propagates_to_parent [] []
    [("type", .jstr "TextBlock"), ("requires", .jobj [("CapX", .jstr "1.0")])]
    "TextBlock" .textBlock
    ⟨.textBlock, none, [("CapX", ⟨1, 0, true⟩)], false, []⟩ []
    rfl (by decide) (by decide) (by decide)
    (by rw [elementParseM_leaf (by decide)]; rfl)
    (by decide) rfl

/-- Shared evaluation: a `Container` with an `Image` child carrying an
object fallback parses to a container holding the image element (the
element side passes an empty forbidden list). -/
theorem containerKeepsImageChild :
    createElementInstance [] false
      (.jobj [("type", .jstr "Container"),
        ("items", .jarr [.jobj [("type", .jstr "Image"),
          ("fallback", .jobj [("type", .jstr "TextBlock")])]])]) true =
      .ok ⟨some (.mk .container none [] false [.mk .image none [] false []]),
        false, []⟩ := by
  have himg : createCardObjectInstanceE [] true []
      (.jobj [("type", .jstr "Image"),
        ("fallback", .jobj [("type", .jstr "TextBlock")])]) true =
      .ok ⟨some ⟨.image, none, [], false, []⟩, false, []⟩ :=
    create_known_ok rfl (by decide) (by decide) (by decide)
      (elementParseM_leaf (by decide)) (by decide)
  have hloop : parseItemsLoop []
      [.jobj [("type", .jstr "Image"),
        ("fallback", .jobj [("type", .jstr "TextBlock")])]] =
      .ok ([⟨.image, none, [], false, []⟩], false, []) := by
    have h : parseItemsLoop []
        ((.jobj [("type", .jstr "Image"),
          ("fallback", .jobj [("type", .jstr "TextBlock")])]) :: []) =
        (match parseItemsLoop [] [] with
         | .ok r =>
           .ok ((⟨.image, none, [], false, []⟩ : ElementState) :: r.1,
             false || r.2.1, [] ++ r.2.2)
         | .error err => .error err) :=
      parseItemsLoop_cons_standalone himg rfl (by decide)
    rw [h, parseItemsLoop_nil]
    rfl
  have hx : lookupField
      [("type", JValue.jstr "Container"),
        ("items", JValue.jarr [JValue.jobj [("type", JValue.jstr "Image"),
          ("fallback", JValue.jobj [("type", JValue.jstr "TextBlock")])]])]
      "items" =
      some (JValue.jarr [JValue.jobj [("type", JValue.jstr "Image"),
        ("fallback", JValue.jobj [("type", JValue.jstr "TextBlock")])]]) :=
    rfl
  have hparse : elementParseM [] .container
      [("type", .jstr "Container"),
        ("items", .jarr [.jobj [("type", .jstr "Image"),
          ("fallback", .jobj [("type", .jstr "TextBlock")])]])] =
      .ok (⟨.container, none, [], false, [⟨.image, none, [], false, []⟩]⟩,
        []) := by
    rw [elementParseM_container hx, hloop]
    rfl
  exact create_known_ok rfl (by decide) (by decide) (by decide) hparse
    (by decide)

/-- Counterexample to claim C8: a container's forbidden element types are
not consulted during parse (`createElementInstance` passes an empty
forbidden list), so a container that forbids `Image` still yields the
parsed `Image` child — the parse output does contain an element for that
node. -/
theorem C8_counterexample :
    createElementInstance [] false
      (.jobj [("type", .jstr "Container"),
        ("items", .jarr [.jobj [("type", .jstr "Image"),
          ("fallback", .jobj [("type", .jstr "TextBlock")])]])]) true =
      .ok ⟨some (.mk .container none [] false [.mk .image none [] false []]),
        false, []⟩ ∧
    [ElementState.mk .image none [] false []] ≠ ([] : List ElementState) := by
  constructor
  · exact containerKeepsImageChild
  · simp

/-- Claim C8 as amended: element parsing passes an empty forbidden-type
list, so the `Image` child with a valid object fallback is parsed and
kept; the container instead reports the forbidden child at validation
time (with the `InteractivityNotAllowed` error kind that line 2093
uses); the forbidden-type short-circuit before fallback applies where a
forbidden list is passed, as on the action side. -/
theorem C8_amended_forbidden_at_validate_not_parse :
    createElementInstance [] false
      (.jobj [("type", .jstr "Container"),
        ("items", .jarr [.jobj [("type", .jstr "Image"),
          ("fallback", .jobj [("type", .jstr "TextBlock")])]])]) true =
      .ok ⟨some (.mk .container none [] false [.mk .image none [] false []]),
        false, []⟩ ∧
    (containerValidateRoot true ["Image"]
        (.mk .container none [] false [.mk .image none [] false []])).failures =
      [⟨0, [⟨.InteractivityNotAllowed,
        "Elements of type Image are not allowed in this container."⟩]⟩] ∧
    createActionInstanceM [] true ["Action.OpenUrl"]
      (.jobj [("type", .jstr "Action.OpenUrl"),
        ("fallback", .jobj [("type", .jstr "Action.Submit")])]) true =
      ⟨none, false, [actionForbiddenTypeError "Action.OpenUrl"]⟩ := by
  refine ⟨containerKeepsImageChild, ?_, ?_⟩
  · simp [containerValidateRoot, childrenValidateWalk, elementValidateWalk,
      cardObjectValidateId, emptyValidationResults, isElementAllowedM,
      elementIsInteractive, elementTypeName, ElementState.etype, addFailure,
      addFailureList]
  · rw [createActionInstanceM]
    simp [lookupField, getStringValue]

/-- Counterexample to claim C4: `AdaptiveCard` is a Card Object, yet with
no explicit flag and all (zero) capability requirements met, an
unsupported version alone makes `shouldFallback()` return true — the
claimed "if and only if" fails. -/
theorem C4_counterexample :
    adaptiveCardShouldFallbackM [] ⟨1, 2, true⟩
      ⟨some "AdaptiveCard", some ⟨2, 0, true⟩, none, [], false, []⟩ = true ∧
    (⟨some "AdaptiveCard", some ⟨2, 0, true⟩, none, [], false, []⟩ :
      AdaptiveCardState).fallbackFlag = false ∧
    areAllMet
      (⟨some "AdaptiveCard", some ⟨2, 0, true⟩, none, [], false, []⟩ :
        AdaptiveCardState).requires [] = true := by
  refine ⟨rfl, rfl, rfl⟩

/-- Claim C4 as amended: for a Card Object with the base
`CardObject.shouldFallback`, the result is true iff the object was
explicitly flagged or its capability requirements are not all met; an
`AdaptiveCard` additionally reports true when its version is unsupported.
In particular an unmet required capability forces `shouldFallback()`
true, for elements and cards alike, with no explicit flag set. -/
theorem C4_amended_shouldFallback_iff :
    (∀ (hostCaps : List (String × Version)) (st : ElementState),
      elementShouldFallback hostCaps st = true ↔
        (st.fallbackFlag = true ∨ areAllMet st.requires hostCaps = false)) ∧
    (∀ (hostCaps : List (String × Version)) (latest : Version)
        (card : AdaptiveCardState),
      adaptiveCardShouldFallbackM hostCaps latest card = true ↔
        (card.fallbackFlag = true ∨
          areAllMet card.requires hostCaps = false ∨
          isVersionSupportedM false latest card.version = false)) ∧
    (∀ (hostCaps : List (String × Version)) (st : ElementState)
        (n : String) (v : Version),
      (n, v) ∈ st.requires → capFind hostCaps n = none →
      elementShouldFallback hostCaps st = true) := by
  refine ⟨?_, ?_, ?_⟩
  · intro hostCaps st
    simp [elementShouldFallback, Bool.or_eq_true, Bool.not_eq_true']
  · intro hostCaps latest card
    simp [adaptiveCardShouldFallbackM, Bool.or_eq_true, Bool.not_eq_true']
    tauto
  · intro hostCaps st n v hmem hfind
    have hmet : areAllMet st.requires hostCaps = false := by
      refine Bool.eq_false_iff.mpr ?_
      intro htrue
      rw [areAllMet, List.all_eq_true] at htrue
      have h2 := htrue (n, v) hmem
      simp [hfind] at h2
    simp [elementShouldFallback, hmet]

/-- Witness for C4 (amended): a `TextBlock` requiring `CapX` against an
empty host capability set reports `shouldFallback()` true with no flag
set. -/
theorem C4_amended_shouldFallback_iff_witness :
    elementShouldFallback []
      ⟨.textBlock, none, [("CapX", ⟨1, 0, true⟩)], false, []⟩ = true :=
  C4_amended_shouldFallback_iff.2.2 []
    ⟨.textBlock, none, [("CapX", ⟨1, 0, true⟩)], false, []⟩ "CapX"
    ⟨1, 0, true⟩ (by decide) rfl

/-- Membership after `addFailure`: the added error is attached to the
given card object. -/
theorem addFailureList_mem (l : List ValidationFailureM) (obj : Nat)
    (e : IValidationError) :
    ∃ f ∈ addFailureList l obj e, f.cardObject = obj ∧ e ∈ f.errors := by
  induction l with
  | nil => exact ⟨⟨obj, [e]⟩, by simp [addFailureList]⟩
  | cons f rest ih =>
    by_cases h : f.cardObject = obj
    · exact ⟨⟨f.cardObject, f.errors ++ [e]⟩, by simp [addFailureList, h],
        h, by simp⟩
    · obtain ⟨g, hg, hob, he⟩ := ih
      exact ⟨g, by simp [addFailureList, h, hg], hob, he⟩

/-- Claim C9: an `AdaptiveCard` (version check not bypassed) whose parsed
version exceeds the latest supported version by major/minor comparison
fails validation with an `UnsupportedCardVersion` failure attached to the
card, and `shouldFallback()` is true. -/
theorem C9_version_gate :
    ∀ (si : Bool) (latest : Version) (card : AdaptiveCardState)
      (v : Version) (hostCaps : List (String × Version)),
      card.version = some v → v.isValid = true →
      (latest.major < v.major ∨
        (latest.major = v.major ∧ latest.minor < v.minor)) →
      (∃ f ∈ (adaptiveCardValidateM si latest card).failures,
        f.cardObject = 0 ∧
          (⟨.UnsupportedCardVersion,
            "The specified card version (" ++ versionToString v ++
              ") is not supported. The maximum supported card version is " ++
              versionToString latest⟩ : IValidationError) ∈ f.errors) ∧
      adaptiveCardShouldFallbackM hostCaps latest card = true := by
  intro si latest card v hostCaps hv hvalid hgt
  have hsupp : isVersionSupportedM false latest card.version = false := by
    rw [hv]
    simp [isVersionSupportedM, hvalid]
    omega
  constructor
  · unfold adaptiveCardValidateM
    rw [hv]
    rw [hv] at hsupp
    simp only [hsupp, Bool.not_false, if_pos]
    exact addFailureList_mem _ 0 _
  · simp [adaptiveCardShouldFallbackM, hsupp]

/-- Witness for C9: a card declaring version 2.0 against latest supported
1.2 gets the UnsupportedCardVersion failure and falls back. -/
theorem C9_version_gate_witness :
    (∃ f ∈ (adaptiveCardValidateM true ⟨1, 2, true⟩
        ⟨some "AdaptiveCard", some ⟨2, 0, true⟩, none, [], false,
          []⟩).failures,
      f.cardObject = 0 ∧
        (⟨.UnsupportedCardVersion,
          "The specified card version (" ++ versionToString ⟨2, 0, true⟩ ++
            ") is not supported. The maximum supported card version is " ++
            versionToString ⟨1, 2, true⟩⟩ : IValidationError) ∈ f.errors) ∧
    adaptiveCardShouldFallbackM [] ⟨1, 2, true⟩
      ⟨some "AdaptiveCard", some ⟨2, 0, true⟩, none, [], false, []⟩ = true :=
  C9_version_gate true ⟨1, 2, true⟩
    ⟨some "AdaptiveCard", some ⟨2, 0, true⟩, none, [], false, []⟩
    ⟨2, 0, true⟩ [] rfl rfl (Or.inl (by decide))

/-- A registered action type name is the instance's JSON type name. -/
theorem actionRegistryCreate_name {tn : String} {t : ActionType}
    (h : actionRegistryCreate tn = some t) : actionTypeName t = tn := by
  unfold actionRegistryCreate at h
  split_ifs at h <;> injection h with hh <;> subst hh <;>
    simp_all [actionTypeName]

/-- Registered action type names are non-empty. -/
theorem actionRegistryCreate_ne_empty {tn : String} {t : ActionType}
    (h : actionRegistryCreate tn = some t) : tn ≠ "" := by
  have hn := actionRegistryCreate_name h
  rw [← hn]
  cases t <;> decide

/-- Instantiation of a registered action that does not attempt
fallback. -/
theorem createAction_known_ok {hostCaps : List (String × Version)}
    {hasParent : Bool} {forbidden : List String} {allowFallback : Bool}
    {fields : List (String × JValue)} {tn : String} {t : ActionType}
    (h1 : getStringValue (lookupField fields "type") = some tn)
    (h3 : tn ∉ forbidden)
    (h4 : actionRegistryCreate tn = some t)
    (h6 : (actionShouldFallback hostCaps (actionParse t fields) &&
      allowFallback) = false) :
    createActionInstanceM hostCaps hasParent forbidden (.jobj fields)
      allowFallback = ⟨some (actionParse t fields), false, []⟩ := by
  have h2 : tn ≠ "" := actionRegistryCreate_ne_empty h4
  rw [createActionInstanceM]
  simp [h1, h2, h3, h4, h6]

/-- Parsing back a serialized action state recovers its fields. -/
theorem actionParse_serialized (t : ActionType) (aid title : Option String) :
    actionParse t
      ([("type", JValue.jstr (actionTypeName t))] ++
        optStrField "id" aid ++ optStrField "title" title) =
      ⟨t, aid, title, [], false⟩ := by
  cases aid <;> cases title <;>
    simp [actionParse, lookupField, getStringValue, parseRequires,
      optStrField]

/-- Registered action names resolve to their own type. -/
theorem actionRegistryCreate_typeName (t : ActionType) :
    actionRegistryCreate (actionTypeName t) = some t := by
  cases t <;> rfl

/-- Re-parsing a serialized action reproduces the same state. -/
theorem createAction_reparse (hostCaps : List (String × Version))
    (hasParent allowFallback : Bool) (t : ActionType)
    (aid title : Option String) :
    createActionInstanceM hostCaps hasParent []
      (actionToJSON ⟨t, aid, title, [], false⟩) allowFallback =
      ⟨some ⟨t, aid, title, [], false⟩, false, []⟩ := by
  have hparse := actionParse_serialized t aid title
  have h1 : getStringValue (lookupField
      ([("type", JValue.jstr (actionTypeName t))] ++
        optStrField "id" aid ++ optStrField "title" title) "type") =
      some (actionTypeName t) := by
    simp [lookupField, getStringValue]
  have h6 : (actionShouldFallback hostCaps ⟨t, aid, title, [], false⟩ &&
      allowFallback) = false := by
    simp [actionShouldFallback, areAllMet]
  have h : createActionInstanceM hostCaps hasParent []
      (.jobj ([("type", JValue.jstr (actionTypeName t))] ++
        optStrField "id" aid ++ optStrField "title" title)) allowFallback =
      ⟨some (actionParse t
        ([("type", JValue.jstr (actionTypeName t))] ++
          optStrField "id" aid ++ optStrField "title" title)), false, []⟩ :=
    createAction_known_ok h1 (by simp) (actionRegistryCreate_typeName t)
      (by rw [hparse]; exact h6)
  rw [hparse] at h
  simpa [actionToJSON] using h

/-- Counterexample to claim C5: round-trip minimality fails on the code.
An empty actions array parses to an empty collection whose `toJSON()` is
`undefined`, not the deep-equal `[]`; and an unknown key (`"x"`, not a
default-valued key) is dropped from the serialization of a parsed
`Action.Submit`. -/
theorem C5_counterexample :
    (actionCollectionToJSON
        (actionCollectionParse [] (some (.jarr []))).1 = none ∧
      (none : Option JValue) ≠ some (.jarr [])) ∧
    actionCollectionToJSON
        (actionCollectionParse []
          (some (.jarr [.jobj [("type", .jstr "Action.Submit"),
            ("x", .jnum 1)]]))).1 =
      some (.jarr [.jobj [("type", .jstr "Action.Submit")]]) := by
  refine ⟨⟨rfl, by simp⟩, ?_⟩
  have hr : createActionInstanceM [] true []
      (.jobj [("type", .jstr "Action.Submit"), ("x", .jnum 1)]) true =
      ⟨some (actionParse .submit
        [("type", .jstr "Action.Submit"), ("x", .jnum 1)]), false, []⟩ :=
    createAction_known_ok rfl (by decide) (by decide) (by decide)
  simp [actionCollectionParse, actionCollectionParseLoop, hr,
    actionCollectionToJSON, actionToJSON, actionParse, lookupField,
    getStringValue, parseRequires, actionTypeName, optStrField]

/-- Claim C5 as amended: serializing a parsed action object produces the
source JSON restricted to the (modelled) schema keys with default-valued
keys removed — unknown keys are dropped, not preserved — and re-parsing
that output reproduces an equal object; a non-empty action collection
serializes to the array of its items' serializations, while an empty one
serializes as absent (`undefined`) rather than `[]`. -/
theorem C5_amended_round_trip :
    (∀ items : List ActionState, items ≠ [] →
      actionCollectionToJSON items = some (.jarr (items.map actionToJSON))) ∧
    actionCollectionToJSON [] = none ∧
    (∀ (hostCaps : List (String × Version)) (hasParent allowFallback : Bool)
        (fields : List (String × JValue)) (tn : String) (t : ActionType),
      getStringValue (lookupField fields "type") = some tn →
      actionRegistryCreate tn = some t →
      lookupField fields "requires" = none →
      createActionInstanceM hostCaps hasParent [] (.jobj fields)
          allowFallback = ⟨some (actionParse t fields), false, []⟩ ∧
        actionToJSON (actionParse t fields) = specMinimalActionJson fields ∧
        createActionInstanceM hostCaps hasParent []
          (actionToJSON (actionParse t fields)) allowFallback =
          ⟨some (actionParse t fields), false, []⟩) := by
  refine ⟨?_, rfl, ?_⟩
  · intro items hne
    cases items with
    | nil => exact absurd rfl hne
    | cons a rest => simp [actionCollectionToJSON]
  · intro hostCaps hasParent allowFallback fields tn t h1 h4 hreq
    have hsf : actionShouldFallback hostCaps (actionParse t fields) = false := by
      simp [actionShouldFallback, actionParse, hreq, parseRequires, areAllMet]
    have hafields : actionParse t fields =
        ⟨t, getStringValue (lookupField fields "id"),
          getStringValue (lookupField fields "title"), [], false⟩ := by
      simp [actionParse, hreq, parseRequires]
    refine ⟨createAction_known_ok h1 (by simp) h4 (by simp [hsf]), ?_, ?_⟩
    · have hn := actionRegistryCreate_name h4
      simp [actionToJSON, specMinimalActionJson, actionParse, hn, h1,
        optStrField]
    · rw [hafields]
      exact createAction_reparse hostCaps hasParent allowFallback t
        (getStringValue (lookupField fields "id"))
        (getStringValue (lookupField fields "title"))

/-- Witness for C5 (amended): a concrete `Action.OpenUrl` fragment with a
title round-trips through parse and toJSON. -/
theorem C5_amended_round_trip_witness :
    createActionInstanceM [] true []
        (.jobj [("type", .jstr "Action.OpenUrl"), ("title", .jstr "Go")])
        true =
      ⟨some (actionParse .openUrl
        [("type", .jstr "Action.OpenUrl"), ("title", .jstr "Go")]),
        false, []⟩ ∧
    actionToJSON (actionParse .openUrl
        [("type", .jstr "Action.OpenUrl"), ("title", .jstr "Go")]) =
      specMinimalActionJson
        [("type", .jstr "Action.OpenUrl"), ("title", .jstr "Go")] ∧
    createActionInstanceM [] true []
        (actionToJSON (actionParse .openUrl
          [("type", .jstr "Action.OpenUrl"), ("title", .jstr "Go")])) true =
      ⟨some (actionParse .openUrl
        [("type", .jstr "Action.OpenUrl"), ("title", .jstr "Go")]),
        false, []⟩ :=
  C5_amended_round_trip.2.2 [] true true
    [("type", .jstr "Action.OpenUrl"), ("title", .jstr "Go")]
    "Action.OpenUrl" .openUrl rfl (by decide) rfl

/-! Claim C10: the type registries. -/

/-- The registered names after `registerType`: unchanged when the name was
present, appended otherwise. -/
theorem registerTypeM_names {α : Type} (items : List (TypeRegistration α))
    (tn : String) (f : α) (sv : Option Version) :
    (registerTypeM items tn f sv).map (·.typeName) =
      (if tn ∈ items.map (·.typeName) then items.map (·.typeName)
       else items.map (·.typeName) ++ [tn]) := by
  induction items with
  | nil => simp [registerTypeM]
  | cons r rest ih =>
    by_cases h : r.typeName = tn
    · simp [registerTypeM, h]
    · simp only [registerTypeM, if_neg h, List.map_cons, ih]
      by_cases hmem : tn ∈ rest.map (·.typeName) <;>
        simp [hmem, Ne.symm h, h]

/-- `registerType` preserves name uniqueness. -/
theorem registerTypeM_unique {α : Type} {items : List (TypeRegistration α)}
    (hu : registryNamesUnique items) (tn : String) (f : α)
    (sv : Option Version) :
    registryNamesUnique (registerTypeM items tn f sv) := by
  unfold registryNamesUnique at hu ⊢
  rw [registerTypeM_names]
  by_cases hmem : tn ∈ items.map (·.typeName)
  · simpa [hmem] using hu
  · simp only [if_neg hmem]
    simp [List.nodup_append, hu, hmem]

/-- The registered names after `unregisterType` form a sublist of the
previous names. -/
theorem unregisterTypeM_names_sublist {α : Type}
    (items : List (TypeRegistration α)) (tn : String) :
    ((unregisterTypeM items tn).map (·.typeName)).Sublist
      (items.map (·.typeName)) := by
  induction items with
  | nil => simp [unregisterTypeM]
  | cons r rest ih =>
    by_cases h : r.typeName = tn
    · simp only [unregisterTypeM, if_pos h, List.map_cons]
      exact (List.sublist_cons_self _ _)
    · simp only [unregisterTypeM, if_neg h, List.map_cons]
      exact ih.cons₂ _

/-- `unregisterType` preserves name uniqueness. -/
theorem unregisterTypeM_unique {α : Type} {items : List (TypeRegistration α)}
    (hu : registryNamesUnique items) (tn : String) :
    registryNamesUnique (unregisterTypeM items tn) :=
  hu.sublist (unregisterTypeM_names_sublist items tn)

/-- `createInstance` right after registering `tn` yields the new
factory's instance. -/
theorem createInstance_register_same {α : Type}
    (items : List (TypeRegistration α)) (tn : String) (f : α)
    (sv : Option Version) :
    registryCreateInstance (registerTypeM items tn f sv) tn = some f := by
  induction items with
  | nil => simp [registerTypeM, registryCreateInstance, findTypeRegistration]
  | cons r rest ih =>
    by_cases h : r.typeName = tn
    · simp [registerTypeM, h, registryCreateInstance, findTypeRegistration]
    · simpa [registerTypeM, h, registryCreateInstance, findTypeRegistration]
        using ih

/-- Registering a different name does not change the lookup. -/
theorem createInstance_register_other {α : Type}
    (items : List (TypeRegistration α)) {m tn : String} (hne : m ≠ tn)
    (f : α) (sv : Option Version) :
    registryCreateInstance (registerTypeM items m f sv) tn =
      registryCreateInstance items tn := by
  induction items with
  | nil => simp [registerTypeM, registryCreateInstance, findTypeRegistration,
      hne]
  | cons r rest ih =>
    by_cases h : r.typeName = m
    · simp [registerTypeM, h, registryCreateInstance, findTypeRegistration,
        hne]
    · by_cases h2 : r.typeName = tn
      · simp [registerTypeM, h, h2, registryCreateInstance,
          findTypeRegistration, hne.symm]
      · simpa [registerTypeM, h, h2, registryCreateInstance,
          findTypeRegistration] using ih

/-- A name that is not registered is not found. -/
theorem findTypeRegistration_not_mem {α : Type}
    {items : List (TypeRegistration α)} {tn : String}
    (h : tn ∉ items.map (·.typeName)) :
    findTypeRegistration items tn = none := by
  induction items with
  | nil => rfl
  | cons r rest ih =>
    simp only [List.map_cons, List.mem_cons] at h
    push_neg at h
    simp [findTypeRegistration, Ne.symm h.1, ih h.2]

/-- With unique names, unregistering `tn` removes it from lookup. -/
theorem createInstance_unregister_same {α : Type}
    {items : List (TypeRegistration α)} (hu : registryNamesUnique items)
    (tn : String) :
    registryCreateInstance (unregisterTypeM items tn) tn = none := by
  induction items with
  | nil => rfl
  | cons r rest ih =>
    unfold registryNamesUnique at hu
    simp only [List.map_cons, List.nodup_cons] at hu
    by_cases h : r.typeName = tn
    · have hnot : tn ∉ rest.map (·.typeName) := by
        rw [← h]
        exact hu.1
      simp only [unregisterTypeM, if_pos h, registryCreateInstance,
        findTypeRegistration_not_mem hnot, Option.map_none']
    · simpa [unregisterTypeM, h, registryCreateInstance,
        findTypeRegistration] using ih hu.2

/-- Unregistering a different name does not change the lookup. -/
theorem createInstance_unregister_other {α : Type}
    (items : List (TypeRegistration α)) {m tn : String} (hne : m ≠ tn) :
    registryCreateInstance (unregisterTypeM items m) tn =
      registryCreateInstance items tn := by
  induction items with
  | nil => rfl
  | cons r rest ih =>
    by_cases h : r.typeName = m
    · have h2 : r.typeName ≠ tn := by
        rw [h]
        exact hne
      simp [unregisterTypeM, h, registryCreateInstance,
        findTypeRegistration, h2, hne]
    · by_cases h2 : r.typeName = tn
      · simp [unregisterTypeM, h, h2, registryCreateInstance,
          findTypeRegistration, hne.symm]
      · simpa [unregisterTypeM, h, h2, registryCreateInstance,
          findTypeRegistration] using ih

/-- Claim C10: after any sequence of `registerType` / `unregisterType`
calls from a registry with unique names, there is at most one
registration per type name, and `createInstance` returns the instance of
the most recently registered factory for the name — or none when the
name is not (or no longer) registered. -/
theorem C10_registry_replace_in_place :
    ∀ (α : Type) (init : List (TypeRegistration α))
      (ops : List (RegistryOp α)) (tn : String),
      registryNamesUnique init →
      registryNamesUnique (applyRegistryOps init ops) ∧
        registryCreateInstance (applyRegistryOps init ops) tn =
          registryLookupSpec ops tn (registryCreateInstance init tn) := by
  intro α init ops tn hu
  induction ops generalizing init with
  | nil => exact ⟨hu, rfl⟩
  | cons op rest ih =>
    have hstep : registryNamesUnique (applyRegistryOp init op) := by
      cases op with
      | register m f sv => exact registerTypeM_unique hu m f sv
      | unregister m => exact unregisterTypeM_unique hu m
    obtain ⟨hu2, heq⟩ := ih (applyRegistryOp init op) hstep
    refine ⟨hu2, ?_⟩
    have hlook : registryCreateInstance (applyRegistryOp init op) tn =
        (match op with
         | .register m f _ =>
           if m = tn then some f else registryCreateInstance init tn
         | .unregister m =>
           if m = tn then none else registryCreateInstance init tn) := by
      cases op with
      | register m f sv =>
        by_cases hm : m = tn
        · subst hm
          simp [applyRegistryOp, createInstance_register_same]
        · simp [applyRegistryOp, createInstance_register_other init hm,
            hm]
      | unregister m =>
        by_cases hm : m = tn
        · subst hm
          simp [applyRegistryOp, createInstance_unregister_same hu]
        · simp [applyRegistryOp, createInstance_unregister_other init hm,
            hm]
    calc registryCreateInstance (applyRegistryOps init (op :: rest)) tn
        = registryCreateInstance
            (applyRegistryOps (applyRegistryOp init op) rest) tn := rfl
      _ = registryLookupSpec rest tn
            (registryCreateInstance (applyRegistryOp init op) tn) := heq
      _ = registryLookupSpec (op :: rest) tn
            (registryCreateInstance init tn) := by
          rw [hlook]
          cases op <;> rfl

/-- Witness for C10: registering `A` twice replaces the factory in place
and `createInstance` returns the second factory's instance; a never
registered `B` resolves to none. -/
theorem C10_registry_replace_in_place_witness :
    (registryNamesUnique (applyRegistryOps ([] : List (TypeRegistration Nat))
        [.register "A" 1 none, .register "A" 2 none]) ∧
      registryCreateInstance (applyRegistryOps
          ([] : List (TypeRegistration Nat))
          [.register "A" 1 none, .register "A" 2 none]) "A" =
        registryLookupSpec [.register "A" 1 none, .register "A" 2 none] "A"
          (registryCreateInstance ([] : List (TypeRegistration Nat)) "A")) ∧
    registryLookupSpec [.register "A" 1 none, .register "A" 2 none] "A"
      (registryCreateInstance ([] : List (TypeRegistration Nat)) "A") =
      some 2 ∧
    registryCreateInstance (applyRegistryOps
        ([] : List (TypeRegistration Nat))
        [.register "A" 1 none, .register "A" 2 none]) "B" = none :=
  ⟨C10_registry_replace_in_place Nat []
      [.register "A" 1 none, .register "A" 2 none] "A"
      (by simp [registryNamesUnique]),
    rfl, rfl⟩


/-! Claim C2: duplicate-id validation. -/

/-- Folding the id validation over an append. -/
theorem validateIdsFold_append (l1 l2 : List (Nat × Option String))
    (ctx : ValidationResultsM) :
    validateIdsFold (l1 ++ l2) ctx =
      validateIdsFold l2 (validateIdsFold l1 ctx) := by
  induction l1 generalizing ctx with
  | nil => rfl
  | cons p rest ih =>
    obtain ⟨i, oid⟩ := p
    simp [validateIdsFold, ih]

/-- Positive size of element states. -/
theorem ElementState.sizeOf_pos (st : ElementState) : 0 < sizeOf st := by
  cases st
  simp only [ElementState.mk.sizeOf_spec]
  omega

/-- The standard validation walk (interactivity supported, no forbidden
types) is the flat id fold over the visit order. -/
theorem elementValidateWalk_eq_fold (n : Nat) :
    (∀ st : ElementState, sizeOf st ≤ n → ∀ idx ctx,
      elementValidateWalk true st idx ctx =
        (validateIdsFold (walkIds st idx).1 ctx, (walkIds st idx).2)) ∧
    (∀ xs : List ElementState, sizeOf xs ≤ n →
      ∀ parentIdx next ctx,
      childrenValidateWalk true parentIdx [] xs next ctx =
        (validateIdsFold (walkIdsList xs next).1 ctx,
          (walkIdsList xs next).2)) := by
  induction n with
  | zero =>
    constructor
    · intro st hle
      exact absurd hle (by have := ElementState.sizeOf_pos st; omega)
    · intro xs hle
      exact absurd hle (by cases xs <;> simp)
  | succ n ih =>
    constructor
    · intro st hle idx ctx
      obtain ⟨t, oid, req, flag, xs⟩ := st
      have hxs : sizeOf xs ≤ n := by
        simp only [ElementState.mk.sizeOf_spec] at hle
        omega
      cases t with
      | container =>
        rw [elementValidateWalk, walkIds]
        rw [ih.2 xs hxs idx (idx + 1) (cardObjectValidateId idx oid ctx)]
        rfl
      | textBlock =>
        rw [elementValidateWalk, walkIds] <;> simp [validateIdsFold]
      | image =>
        rw [elementValidateWalk, walkIds] <;> simp [validateIdsFold]
      | textRun =>
        rw [elementValidateWalk, walkIds] <;> simp [validateIdsFold]
    · intro xs hle parentIdx next ctx
      cases xs with
      | nil => rw [childrenValidateWalk, walkIdsList]; rfl
      | cons c rest =>
        have hc : sizeOf c ≤ n := by
          simp only [List.cons.sizeOf_spec] at hle
          omega
        have hrest : sizeOf rest ≤ n := by
          simp only [List.cons.sizeOf_spec] at hle
          omega
        rw [childrenValidateWalk, walkIdsList]
        simp only [elementIsInteractive, isElementAllowedM, List.not_mem_nil]
        simp
        rw [ih.1 c hc next ctx, ih.2 rest hrest parentIdx]
        simp only [validateIdsFold_append]

/-- Appending one visit entry to the processed list shifts the count of
its id by one. -/
theorem countIdIn_append_one (pre : List (Nat × Option String)) (i : Nat)
    (oid : Option String) (s : String) :
    countIdIn (pre ++ [(i, oid)]) s =
      countIdIn pre s + (if oid = some s then 1 else 0) := by
  by_cases h : oid = some s <;> simp [countIdIn, List.filter_append, h]

/-- Adding a failure for a fresh card object appends it at the end. -/
theorem addFailureList_fresh {fs : List ValidationFailureM} {i : Nat}
    (e : IValidationError) (h : ∀ f ∈ fs, f.cardObject ≠ i) :
    addFailureList fs i e = fs ++ [⟨i, [e]⟩] := by
  induction fs with
  | nil => rfl
  | cons f rest ih =>
    have hf : f.cardObject ≠ i := h f (by simp)
    simp only [addFailureList, if_neg hf, List.cons_append, List.cons.injEq,
      true_and]
    exact ih fun g hg => h g (by simp [hg])

/-- The id check ignores missing ids. -/
theorem cardObjectValidateId_none (i : Nat) (ctx : ValidationResultsM) :
    cardObjectValidateId i none ctx = ctx := rfl

/-- The id check ignores empty ids. -/
theorem cardObjectValidateId_empty (i : Nat) (ctx : ValidationResultsM) :
    cardObjectValidateId i (some "") ctx = ctx := rfl

/-- The id check on a non-empty id, unfolded. -/
theorem cardObjectValidateId_some (i : Nat) (s : String)
    (ctx : ValidationResultsM) (hs : s ≠ "") :
    cardObjectValidateId i (some s) ctx =
      (if 0 < ctx.allIds s then
        (⟨fun k => if k = s then
            (if ctx.allIds s = 1 then
              addFailure ctx i ⟨.DuplicateId, "Duplicate Id: " ++ s⟩
             else ctx).allIds k + 1
          else
            (if ctx.allIds s = 1 then
              addFailure ctx i ⟨.DuplicateId, "Duplicate Id: " ++ s⟩
             else ctx).allIds k,
          (if ctx.allIds s = 1 then
            addFailure ctx i ⟨.DuplicateId, "Duplicate Id: " ++ s⟩
           else ctx).failures⟩ : ValidationResultsM)
      else ⟨fun k => if k = s then 1 else ctx.allIds k, ctx.failures⟩) := by
  unfold cardObjectValidateId
  simp [hs]

/-- One step of the id check, seen on spec-determined contexts. -/
theorem cardObjectValidateId_ctxState (pre : List (Nat × Option String))
    (fs : List ValidationFailureM) (i : Nat) (oid : Option String)
    (hfresh : ∀ f ∈ fs, f.cardObject ≠ i) :
    cardObjectValidateId i oid (ctxState pre fs) =
      ctxState (pre ++ [(i, oid)]) (fs ++ dupHead pre i oid) := by
  cases oid with
  | none =>
    rw [cardObjectValidateId_none]
    simp only [dupHead, List.append_nil]
    unfold ctxState
    congr 1
    funext k
    simp [idsCountFun, countIdIn_append_one]
  | some s =>
    by_cases hs : s = ""
    · subst hs
      rw [cardObjectValidateId_empty]
      simp only [dupHead, ne_eq, not_true_eq_false, false_and, if_false,
        List.append_nil]
      unfold ctxState
      congr 1
      funext k
      by_cases hk : k = ""
      · simp [idsCountFun, hk]
      · simp [idsCountFun, hk, countIdIn_append_one, Ne.symm hk]
    · rw [cardObjectValidateId_some i s _ hs]
      have hAeq : (ctxState pre fs).allIds s = countIdIn pre s := by
        simp [ctxState, idsCountFun, hs]
      cases hc : countIdIn pre s with
      | zero =>
        rw [hAeq, hc]
        simp only [Nat.lt_irrefl, if_false, dupHead, ne_eq, hs,
          not_false_eq_true, true_and, hc]
        simp only [if_neg (by omega : ¬ (0 : Nat) = 1), List.append_nil]
        unfold ctxState
        congr 1
        funext k
        by_cases hk : k = s
        · subst hk
          simp [ctxState, idsCountFun, hs, countIdIn_append_one, hc]
        · by_cases hk2 : k = ""
          · simp [ctxState, idsCountFun, hk, hk2,
              (show ¬ "" = s from fun hh => hs hh.symm)]
          · have hsk : ¬ s = k := fun hh => hk hh.symm
            simp [ctxState, idsCountFun, hk, hk2, countIdIn_append_one, hsk]
      | succ c =>
        rw [hAeq, hc]
        rw [if_pos (by omega : 0 < c + 1)]
        cases c with
        | zero =>
          simp only [if_pos (by omega : (0 : Nat) + 1 = 1)]
          have haf : addFailure (ctxState pre fs) i
              ⟨.DuplicateId, "Duplicate Id: " ++ s⟩ =
              (⟨idsCountFun pre,
                fs ++ [⟨i, [⟨.DuplicateId, "Duplicate Id: " ++ s⟩]⟩]⟩ :
                ValidationResultsM) := by
            unfold addFailure ctxState
            rw [addFailureList_fresh _ hfresh]
          rw [haf]
          simp only [dupHead, ne_eq, hs, not_false_eq_true, true_and, hc,
            if_pos (by omega : (0 : Nat) + 1 = 1)]
          unfold ctxState
          congr 1
          funext k
          by_cases hk : k = s
          · subst hk
            simp [ctxState, idsCountFun, hs, countIdIn_append_one, hc]
          · by_cases hk2 : k = ""
            · simp [ctxState, idsCountFun, hk, hk2,
                (show ¬ "" = s from fun hh => hs hh.symm)]
            · have hsk : ¬ s = k := fun hh => hk hh.symm
              simp [ctxState, idsCountFun, hk, hk2, countIdIn_append_one,
                hsk]
        | succ c2 =>
          simp only [if_neg (by omega : ¬ (c2 + 1 + 1 : Nat) = 1)]
          simp only [dupHead, ne_eq, hs, not_false_eq_true, true_and, hc,
            if_neg (by omega : ¬ (c2 + 1 + 1 : Nat) = 1), List.append_nil]
          unfold ctxState
          congr 1
          funext k
          by_cases hk : k = s
          · subst hk
            simp [ctxState, idsCountFun, hs, countIdIn_append_one, hc]
          · by_cases hk2 : k = ""
            · simp [ctxState, idsCountFun, hk, hk2,
                (show ¬ "" = s from fun hh => hs hh.symm)]
            · have hsk : ¬ s = k := fun hh => hk hh.symm
              simp [ctxState, idsCountFun, hk, hk2, countIdIn_append_one,
                hsk]

/-- The flat id fold from a spec-determined context computes exactly the
second-occurrence duplicate reports. -/
theorem validateIdsFold_spec :
    ∀ (l pre : List (Nat × Option String)) (fs : List ValidationFailureM),
      (∀ f ∈ fs, f.cardObject ∉ l.map (·.1)) →
      (l.map (·.1)).Nodup →
      validateIdsFold l (ctxState pre fs) =
        ctxState (pre ++ l) (fs ++ dupSpecAux pre l) := by
  intro l
  induction l with
  | nil =>
    intro pre fs _ _
    simp [validateIdsFold, dupSpecAux]
  | cons p rest ih =>
    intro pre fs hfresh hnodup
    obtain ⟨i, oid⟩ := p
    have hfr : ∀ f ∈ fs, f.cardObject ≠ i := by
      intro f hf
      have := hfresh f hf
      simp at this
      exact this.1
    have hstep := cardObjectValidateId_ctxState pre fs i oid hfr
    have hrec : validateIdsFold ((i, oid) :: rest) (ctxState pre fs) =
        validateIdsFold rest (cardObjectValidateId i oid (ctxState pre fs)) :=
      rfl
    rw [hrec, hstep]
    have hnodup2 : (rest.map (·.1)).Nodup := by
      simpa using (List.nodup_cons.mp (by simpa using hnodup)).2
    have hinotin : i ∉ rest.map (·.1) :=
      (List.nodup_cons.mp (by simpa using hnodup)).1
    have hdup : ∀ f ∈ dupHead pre i oid, f.cardObject = i := by
      intro f hf
      cases oid with
      | none => simp [dupHead] at hf
      | some t2 =>
        by_cases hcond : t2 ≠ "" ∧ countIdIn pre t2 = 1
        · rw [dupHead, if_pos hcond] at hf
          simp at hf
          rw [hf]
        · rw [dupHead, if_neg hcond] at hf
          simp at hf
    have hfresh2 : ∀ f ∈ fs ++ dupHead pre i oid,
        f.cardObject ∉ rest.map (·.1) := by
      intro f hf
      rcases List.mem_append.mp hf with hl | hr
      · intro hmem
        exact hfresh f hl (by simp [hmem])
      · rw [hdup f hr]
        simpa using hinotin
    rw [ih (pre ++ [(i, oid)]) _ hfresh2 hnodup2]
    rw [show dupSpecAux pre ((i, oid) :: rest) =
      dupHead pre i oid ++ dupSpecAux (pre ++ [(i, oid)]) rest from rfl]
    simp [List.append_assoc]

/-- Indices produced by the visit-order walk: bounded by the index window
and pairwise distinct. -/
theorem walkIds_bounds (n : Nat) :
    (∀ st : ElementState, sizeOf st ≤ n → ∀ idx,
      idx < (walkIds st idx).2 ∧
      (∀ k ∈ (walkIds st idx).1.map (·.1),
        idx ≤ k ∧ k < (walkIds st idx).2) ∧
      ((walkIds st idx).1.map (·.1)).Nodup) ∧
    (∀ xs : List ElementState, sizeOf xs ≤ n → ∀ next,
      next ≤ (walkIdsList xs next).2 ∧
      (∀ k ∈ (walkIdsList xs next).1.map (·.1),
        next ≤ k ∧ k < (walkIdsList xs next).2) ∧
      ((walkIdsList xs next).1.map (·.1)).Nodup) := by
  induction n with
  | zero =>
    constructor
    · intro st hle
      exact absurd hle (by have := ElementState.sizeOf_pos st; omega)
    · intro xs hle
      exact absurd hle (by cases xs <;> simp)
  | succ n ih =>
    constructor
    · intro st hle idx
      obtain ⟨t, oid, req, flag, xs⟩ := st
      have hxs : sizeOf xs ≤ n := by
        simp only [ElementState.mk.sizeOf_spec] at hle
        omega
      cases t with
      | container =>
        rw [walkIds]
        obtain ⟨h1, h2, h3⟩ := ih.2 xs hxs (idx + 1)
        refine ⟨by omega, ?_, ?_⟩
        · intro k hk
          simp only [List.map_cons, List.mem_cons] at hk
          rcases hk with hk | hk
          · omega
          · have := h2 k hk
            omega
        · simp only [List.map_cons, List.nodup_cons]
          refine ⟨fun hmem => ?_, h3⟩
          have := h2 idx hmem
          omega
      | textBlock =>
        rw [walkIds] <;> simp
      | image =>
        rw [walkIds] <;> simp
      | textRun =>
        rw [walkIds] <;> simp
    · intro xs hle next
      cases xs with
      | nil =>
        rw [walkIdsList]
        simp
      | cons c rest =>
        have hc : sizeOf c ≤ n := by
          simp only [List.cons.sizeOf_spec] at hle
          omega
        have hrest : sizeOf rest ≤ n := by
          simp only [List.cons.sizeOf_spec] at hle
          omega
        rw [walkIdsList]
        obtain ⟨g1, g2, g3⟩ := ih.1 c hc next
        obtain ⟨h1, h2, h3⟩ := ih.2 rest hrest (walkIds c next).2
        refine ⟨by omega, ?_, ?_⟩
        · intro k hk
          simp only [List.map_append, List.mem_append] at hk
          rcases hk with hk | hk
          · have := g2 k hk
            omega
          · have := h2 k hk
            omega
        · simp only [List.map_append]
          rw [List.nodup_append]
          refine ⟨g3, h3, ?_⟩
          intro a ha hb
          have hga := g2 a ha
          have hhb := h2 a hb
          omega

/-- The failures of `validateProperties` on an element tree are exactly
the second occurrences of each duplicated non-empty id, in walk order,
each carrying a single DuplicateId error. -/
theorem validateProperties_failures_eq_dupSpec (st : ElementState) :
    (validatePropertiesM st).failures = dupSpec (walkIds st 0).1 := by
  have hwalk := (elementValidateWalk_eq_fold (sizeOf st)).1 st le_rfl 0
    emptyValidationResults
  have hctx0 : emptyValidationResults = ctxState [] [] := by
    unfold emptyValidationResults ctxState
    congr 1
    funext s
    simp [idsCountFun, countIdIn]
  have hnodup := ((walkIds_bounds (sizeOf st)).1 st le_rfl 0).2.2
  unfold validatePropertiesM
  rw [hwalk]
  simp only []
  rw [hctx0, validateIdsFold_spec (walkIds st 0).1 [] [] (by simp) hnodup]
  simp [ctxState, dupSpec]

/-- Visit order of the counterexample tree: a container with three
`TextBlock` children all carrying id `"a"`. -/
theorem walkIds_threeA :
    (walkIds (.mk .container none [] false
      [.mk .textBlock (some "a") [] false [],
       .mk .textBlock (some "a") [] false [],
       .mk .textBlock (some "a") [] false []]) 0).1 =
    [(0, none), (1, some "a"), (2, some "a"), (3, some "a")] := by
  rw [walkIds]
  rw [walkIdsList, walkIds]
  rotate_left
  · simp
  rw [walkIdsList, walkIds]
  rotate_left
  · simp
  rw [walkIdsList, walkIds]
  rotate_left
  · simp
  rw [walkIdsList]
  rfl

/-- Visit order of the spec's example tree: children with ids
`"a"`, `"a"`, `"b"`. -/
theorem walkIds_aab :
    (walkIds (.mk .container none [] false
      [.mk .textBlock (some "a") [] false [],
       .mk .textBlock (some "a") [] false [],
       .mk .textBlock (some "b") [] false []]) 0).1 =
    [(0, none), (1, some "a"), (2, some "a"), (3, some "b")] := by
  rw [walkIds]
  rw [walkIdsList, walkIds]
  rotate_left
  · simp
  rw [walkIdsList, walkIds]
  rotate_left
  · simp
  rw [walkIdsList, walkIds]
  rotate_left
  · simp
  rw [walkIdsList]
  rfl

/-- Counterexample to claim C2: in a tree whose ids are
`["a", "a", "a"]`, `validateProperties()` reports exactly one DuplicateId
failure — on the second occurrence only. The third occurrence (visit
index 3) gets none, because the counter check `allIds[id] == 1` fires
only when the pre-increment count is exactly 1; the claim demands a
failure on every later occurrence as well. -/
theorem C2_counterexample :
    (validatePropertiesM (.mk .container none [] false
      [.mk .textBlock (some "a") [] false [],
       .mk .textBlock (some "a") [] false [],
       .mk .textBlock (some "a") [] false []])).failures =
      [⟨2, [⟨.DuplicateId, "Duplicate Id: a"⟩]⟩] ∧
    ¬ ∃ f ∈ (validatePropertiesM (.mk .container none [] false
      [.mk .textBlock (some "a") [] false [],
       .mk .textBlock (some "a") [] false [],
       .mk .textBlock (some "a") [] false []])).failures,
      f.cardObject = 3 := by
  rw [validateProperties_failures_eq_dupSpec, walkIds_threeA]
  constructor
  · decide
  · decide

/-- Claim C2 as amended: for every tree, `validateProperties()` reports
exactly one DuplicateId failure per duplicated non-empty id, attached to
the second occurrence in walk order — never to the first, and not to the
third or later occurrences (they are counted but not re-reported). In
particular, for ids `["a", "a", "b"]` there is exactly one failure,
attached to the second element with id `"a"`, and none for `"b"`. -/
theorem C2_amended_second_occurrence_only :
    (∀ st : ElementState,
      (validatePropertiesM st).failures = dupSpec (walkIds st 0).1) ∧
    (validatePropertiesM (.mk .container none [] false
      [.mk .textBlock (some "a") [] false [],
       .mk .textBlock (some "a") [] false [],
       .mk .textBlock (some "b") [] false []])).failures =
      [⟨2, [⟨.DuplicateId, "Duplicate Id: a"⟩]⟩] := by
  constructor
  · exact validateProperties_failures_eq_dupSpec
  · rw [validateProperties_failures_eq_dupSpec, walkIds_aab]
    decide

end AdaptiveCards
